import Mathlib

/-!
Verification of the `MongoLocks` lease-based distributed lock manager
(`src/locking/locking.py`).  The Mongo collection is modelled as an
association list from document `_id` to the lock record; each Mongo call
(`find_one_and_replace`, `delete_one`, `update_many`) is a pure function on
that store.  Wall-clock reads (`time()`) are passed in as an explicit `now`
parameter, process ids (`os.getpid()`) as a `pid` parameter, and the random
`uuid4()` holder token as an `id_` parameter.
-/

namespace MongoLocks

/-- A persisted lock document: `{"expires_at": ..., "lock_id": ...}`. -/
structure LockRecord where
  expires_at : Nat
  lock_id : String
deriving DecidableEq, Repr

/-- `MongoLocks._MAX_AGE = 10` seconds. -/
def MAX_AGE : Nat := 10

/-- `MongoLocks._POOLING_INTERVAL = 100` milliseconds. -/
def POOLING_INTERVAL : Nat := 100

/-- The sleep between heartbeat cycles: `sleep(self._MAX_AGE // 3)`
(Python floor division, which is `Nat` division here). -/
def HEARTBEAT_INTERVAL : Nat := MAX_AGE / 3

/-- The Mongo `locks` collection, keyed by `_id`.  The unique index on
`_id` is reflected by always reading the first binding of a key. -/
abbrev Store := List (String × LockRecord)

/-- Point lookup by `_id`. -/
def Store.find : Store → String → Option LockRecord
  | [], _ => none
  | (k', r) :: s, k => if k' = k then some r else Store.find s k

/-- `delete_one({"_id": key})`: removes the document for the key
(a no-op when absent; the unique `_id` index keeps at most one). -/
def Store.removeKey : Store → String → Store
  | [], _ => []
  | p :: s, k => if p.1 = k then Store.removeKey s k else p :: Store.removeKey s k

/-- Write the document for `_id = k` (replace-or-insert); the unique
index keeps one document per `_id`. -/
def Store.put (s : Store) (k : String) (r : LockRecord) : Store :=
  (k, r) :: s.removeKey k

/-- `update_many({"_id": {"$in": keys}}, {"$set": {"expires_at": newExp}})`:
every existing document whose `_id` is listed gets the new expiry; its
`lock_id` is untouched and no document is created or removed. -/
def Store.renewMany (s : Store) (keys : List String) (newExp : Nat) : Store :=
  s.map (fun p =>
    (p.1, if p.1 ∈ keys then { p.2 with expires_at := newExp } else p.2))

/-- The one store error `_try_acquire` catches: `pymongo.errors.DuplicateKeyError`. -/
inductive MongoError where
  | duplicateKey
deriving DecidableEq, Repr

/-- `find_one_and_replace` with filter
`{"_id": key, "$or": [{"expires_at": {"$exists": False}}, {"expires_at": {"$lte": now}}]}`,
`upsert=True`, `return_document=AFTER`:
* no document for the key: the filter matches nothing, the upsert inserts
  the replacement and the post-write document is returned;
* a stale document (`expires_at <= now`): the filter matches, the document
  is replaced and the post-write document is returned;
* a live document: the filter matches nothing and the attempted upsert
  collides with the unique `_id` index, raising `DuplicateKeyError`. -/
def findOneAndReplace (s : Store) (now : Nat) (key : String) (expire_at : Nat)
    (id_ : String) : Except MongoError (LockRecord × Store) :=
  match s.find key with
  | none =>
      let r : LockRecord := ⟨expire_at, id_⟩
      .ok (r, s.put key r)
  | some r =>
      if r.expires_at ≤ now then
        let r' : LockRecord := ⟨expire_at, id_⟩
        .ok (r', s.put key r')
      else
        .error .duplicateKey

/-- `MongoLocks._try_acquire`: the single conditional write, with
`DuplicateKeyError` caught and turned into `None`. -/
def tryAcquire (s : Store) (now : Nat) (key : String) (expire_at : Nat)
    (id_ : String) : Option LockRecord × Store :=
  match findOneAndReplace s now key expire_at id_ with
  | .ok (r, s') => (some r, s')
  | .error _ => (none, s)

/-- The in-memory fields of a `MongoLocks` instance: `_disabled`, `_ns`,
`_locks`, `_initialized`, `_launch_pid`.  The registry `_locks` is a
Python set, modelled as a duplicate-free list. -/
structure LocksState where
  disabled : Bool
  ns : String := ""
  locks : List String := []
  initialized : Bool := false
  launch_pid : Option Nat := none
deriving DecidableEq, Repr

/-- The namespaced identifier `f"{self._ns}__{key}"`. -/
def nsKey (ns key : String) : String := ns ++ "__" ++ key

/-- Set-style `self._locks.add(key)`. -/
def addLock (l : List String) (k : String) : List String :=
  if k ∈ l then l else k :: l

/-- `self._locks.discard(key)`. -/
def discardLock : List String → String → List String
  | [], _ => []
  | x :: l, k => if x = k then discardLock l k else x :: discardLock l k

/-- The lazy first-call setup in `_acquire`: `self._initialized = True`
followed by `_initialize`, which starts the heartbeat thread and records
`self._launch_pid = os.getpid()`.  When already initialized, nothing
changes. -/
def setup (st : LocksState) (pid : Nat) : LocksState :=
  if st.initialized then st
  else { st with initialized := true, launch_pid := some pid }

/-- `_pid_check`: `self._launch_pid not in (None, os.getpid())`. -/
def pidCheckFails (st : LocksState) (pid : Nat) : Bool :=
  match st.launch_pid with
  | none => false
  | some p => p ≠ pid

/-- The `RuntimeError` raised by `_pid_check` on a fork. -/
inductive LockError where
  | forkViolation
deriving DecidableEq, Repr

/-- `MongoLocks._acquire` on the `wait_for = 0` path (the polling retry
loop body never runs then).  The two `time()` reads — one for
`expire_at = time() + expire_in`, one inside the filter — are modelled as
the same instant `now`; `uuid4()` is the parameter `id_`. -/
def acquire (st : LocksState) (s : Store) (pid now expire_in : Nat)
    (id_ key : String) : Except LockError (Bool × LocksState × Store) :=
  if st.disabled then
    .ok (true, st, s)
  else
    let st1 := setup st pid
    if pidCheckFails st1 pid then
      .error .forkViolation
    else
      let k := nsKey st1.ns key
      let expire_at := now + expire_in
      let (lock, s') := tryAcquire s now k expire_at id_
      let locked : Bool :=
        match lock with
        | some r => r.lock_id == id_
        | none => false
      if locked then
        .ok (true, { st1 with locks := addLock st1.locks k }, s')
      else
        .ok (false, st1, s')

/-- `MongoLocks._release`: early return when disabled, otherwise discard
the namespaced key from the registry and delete its document. -/
def release (st : LocksState) (s : Store) (key : String) : LocksState × Store :=
  if st.disabled then (st, s)
  else
    let k := nsKey st.ns key
    ({ st with locks := discardLock st.locks k }, s.removeKey k)

/-- One successful pass of the `_heartbeat_worker` loop body:
`update_many({"_id": {"$in": list(self._locks)}}, {"$set": {"expires_at": time() + self._MAX_AGE}})`. -/
def heartbeatCycle (st : LocksState) (s : Store) (now : Nat) : Store :=
  s.renewMany st.locks (now + MAX_AGE)

/-- Outcome of a `lock_context` use: the body's value, a propagating body
error, the `LockFailure` raised on a failed acquisition with
`raise_exceptions=True`, or the fork-guard `RuntimeError` out of
`_acquire`. -/
inductive CtxOutcome (α : Type) where
  | ok (a : α)
  | bodyError
  | lockFailure
  | forkViolation
deriving DecidableEq, Repr

/-- `MongoLocks.lock_context` (with `wait_for = 0`): acquire with lease
`_MAX_AGE`; on failure with `raise_exceptions` raise `LockFailure` before
the body; otherwise run the body with the boolean (`none` models a body
that raises), and in the `finally` release when locked. -/
def lockContext {α : Type} (st : LocksState) (s : Store) (pid now : Nat)
    (id_ key : String) (raise_exceptions : Bool) (body : Bool → Option α) :
    CtxOutcome α × LocksState × Store :=
  match acquire st s pid now MAX_AGE id_ key with
  | .error .forkViolation => (.forkViolation, st, s)
  | .ok (locked, st1, s1) =>
      if !locked && raise_exceptions then
        (.lockFailure, st1, s1)
      else
        let res := body locked
        let (st2, s2) := if locked then release st1 s1 key else (st1, s1)
        ((match res with
          | some a => CtxOutcome.ok a
          | none => CtxOutcome.bodyError), st2, s2)

/-- The `client` argument of `MongoLocks.__init__`, discriminated the way
the `isinstance` chain does: a `MongoClient`, a `Database`, or anything
else. -/
inductive ClientArg where
  | mongoClient
  | database
  | other
deriving DecidableEq, Repr

/-- The `TypeError` raised for an invalid client handle. -/
inductive InitError where
  | typeError
deriving DecidableEq, Repr

/-- `MongoLocks.__init__`: `self._disabled = disabled; if disabled: return`
— the early return skips every other field, including the client type
check.  Otherwise an invalid client raises `TypeError` and a valid one
yields a fresh non-disabled state. -/
def initMongoLocks (client : ClientArg) (ns : String) (disabled : Bool) :
    Except InitError LocksState :=
  if disabled then
    .ok { disabled := true }
  else
    match client with
    | .other => .error .typeError
    | _ =>
        .ok { disabled := false, ns := ns, locks := [], initialized := false,
              launch_pid := none }

/-- One racing `acquire` attempt in the mutual-exclusion race: its filter
time, its lease length, and its fresh holder token. -/
structure AcquireCall where
  now : Nat
  expireIn : Nat
  lockId : String
deriving DecidableEq, Repr

/-- The core of one racing call: `_try_acquire` followed by the
`lock is not None and lock["lock_id"] == id_` test of `_acquire`. -/
def raceStep (s : Store) (key : String) (c : AcquireCall) : Bool × Store :=
  let (lock, s') := tryAcquire s c.now key (c.now + c.expireIn) c.lockId
  (match lock with
   | some r => r.lock_id == c.lockId
   | none => false, s')

/-- N racing `acquire(K)` calls serialized by the store's single-document
atomicity: each call's conditional write executes atomically, in some
order; the list gives that order. -/
def runRace (s : Store) (key : String) : List AcquireCall → List Bool × Store
  | [] => ([], s)
  | c :: cs =>
      let (b, s') := raceStep s key c
      let (bs, s'') := runRace s' key cs
      (b :: bs, s'')

/-! ### Store lemmas -/

theorem find_put_self (s : Store) (k : String) (r : LockRecord) :
    (s.put k r).find k = some r := by
  simp [Store.put, Store.find]

theorem find_removeKey_self (s : Store) (k : String) :
    (s.removeKey k).find k = none := by
  induction s with
  | nil => rfl
  | cons p s ih =>
      by_cases h : p.1 = k
      · simpa [Store.removeKey, h] using ih
      · simpa [Store.removeKey, Store.find, h] using ih

theorem removeKey_removeKey (s : Store) (k : String) :
    (s.removeKey k).removeKey k = s.removeKey k := by
  induction s with
  | nil => rfl
  | cons p s ih =>
      by_cases h : p.1 = k
      · simpa [Store.removeKey, h] using ih
      · simp [Store.removeKey, h, ih]

theorem discardLock_discardLock (l : List String) (k : String) :
    discardLock (discardLock l k) k = discardLock l k := by
  induction l with
  | nil => rfl
  | cons x l ih =>
      by_cases h : x = k
      · simpa [discardLock, h] using ih
      · simp [discardLock, h, ih]

theorem not_mem_discardLock (l : List String) (k : String) :
    k ∉ discardLock l k := by
  induction l with
  | nil => simp [discardLock]
  | cons x l ih =>
      by_cases h : x = k
      · simpa [discardLock, h] using ih
      · simp [discardLock, h, ih]
        exact fun he => h he.symm

theorem find_renewMany (s : Store) (keys : List String) (e : Nat) (k : String) :
    (s.renewMany keys e).find k =
      (s.find k).map
        (fun r => if k ∈ keys then { r with expires_at := e } else r) := by
  induction s with
  | nil => rfl
  | cons p s ih =>
      by_cases h : p.1 = k
      · subst h
        simp [Store.renewMany, Store.find]
      · simpa [Store.renewMany, Store.find, h] using ih

theorem setup_ns (st : LocksState) (pid : Nat) : (setup st pid).ns = st.ns := by
  unfold setup
  split <;> rfl

theorem setup_disabled (st : LocksState) (pid : Nat) :
    (setup st pid).disabled = st.disabled := by
  unfold setup
  split <;> rfl

theorem setup_initialized (st : LocksState) (pid : Nat) :
    (setup st pid).initialized = true := by
  unfold setup
  cases h : st.initialized <;> simp [h]

/-! ### C7: disabled mode -/

/-- C7: with `disabled = true`, `acquire` returns true for every store,
returns the store verbatim (no record written), and neither reads nor
writes any other state. -/
theorem C7_disabled_mode (st : LocksState) (s : Store)
    (pid now expire_in : Nat) (id_ key : String) (h : st.disabled = true) :
    acquire st s pid now expire_in id_ key = Except.ok (true, st, s) := by
  simp [acquire, h]

theorem C7_witness :
    ({ disabled := true } : LocksState).disabled = true ∧
      acquire { disabled := true } [("k", ⟨5, "x"⟩)] 1 0 10 "t" "k" =
        Except.ok (true, { disabled := true }, [("k", ⟨5, "x"⟩)]) :=
  ⟨rfl, C7_disabled_mode _ _ _ _ _ _ _ rfl⟩

/-! ### C9: namespace isolation -/

/-- C9: distinct namespaces yield distinct namespaced identifiers for the
same caller-supplied key, so two managers with different namespaces never
target the same store document. -/
theorem C9_namespace_isolation (ns1 ns2 key : String) (h : ns1 ≠ ns2) :
    nsKey ns1 key ≠ nsKey ns2 key := by
  intro he
  apply h
  have hd : ns1.data ++ ("__".data ++ key.data) =
      ns2.data ++ ("__".data ++ key.data) := by
    have := congrArg String.data he
    simpa [nsKey, String.data_append, List.append_assoc] using this
  exact String.ext (List.append_cancel_right hd)

theorem C9_witness : "a" ≠ "b" ∧ nsKey "a" "job" ≠ nsKey "b" "job" :=
  ⟨by decide, C9_namespace_isolation "a" "b" "job" (by decide)⟩

/-! ### C10: configuration error (corrected) -/

/-- C10 counterexample: constructing with an invalid store handle but
`disabled = true` raises no error at all — `__init__` returns before the
`isinstance` check runs. -/
theorem C10_counterexample :
    initMongoLocks ClientArg.other "ns" true =
      Except.ok { disabled := true } := rfl

/-- C10 (amended): in a non-disabled construction, a `TypeError` is
raised exactly when the store handle is neither a `MongoClient` nor a
`Database`; with `disabled = true` the check is skipped entirely. -/
theorem C10_config_type_check (client : ClientArg) (ns : String) :
    (initMongoLocks client ns false = Except.error InitError.typeError ↔
        client = ClientArg.other) ∧
      ∀ c : ClientArg, ∃ st, initMongoLocks c ns true = Except.ok st := by
  constructor
  · cases client <;> simp [initMongoLocks]
  · intro c
    exact ⟨{ disabled := true }, rfl⟩

theorem C10_witness :
    (initMongoLocks ClientArg.other "x" false = Except.error InitError.typeError ↔
        ClientArg.other = ClientArg.other) ∧
      ∃ st, initMongoLocks ClientArg.mongoClient "x" true = Except.ok st :=
  ⟨(C10_config_type_check ClientArg.other "x").1,
    (C10_config_type_check ClientArg.other "x").2 ClientArg.mongoClient⟩

/-! ### C4: release -/

/-- C4: for a non-disabled manager, `release` deletes the store document
for the namespaced identifier no matter which holder token it carries,
removes the key from the registry, and is idempotent: releasing again (or
releasing a key that was never held — `st` and `s` are arbitrary) is a
no-op that still leaves no record, and no error is ever produced
(`release` is a total function). -/
theorem C4_release (st : LocksState) (s : Store) (key : String)
    (hd : st.disabled = false) :
    ((release st s key).2.find (nsKey st.ns key) = none) ∧
      (nsKey st.ns key ∉ (release st s key).1.locks) ∧
      (release (release st s key).1 (release st s key).2 key =
        release st s key) := by
  refine ⟨?_, ?_, ?_⟩
  · simp [release, hd, find_removeKey_self]
  · simp [release, hd, not_mem_discardLock]
  · simp [release, hd, discardLock_discardLock, removeKey_removeKey]

theorem C4_witness :
    ({ disabled := false, ns := "ns" } : LocksState).disabled = false ∧
      (release { disabled := false, ns := "ns", locks := ["ns__job"] }
          [("ns__job", ⟨9, "someone"⟩)] "job").2.find "ns__job" = none ∧
      "ns__job" ∉
        (release { disabled := false, ns := "ns", locks := ["ns__job"] }
          [("ns__job", ⟨9, "someone"⟩)] "job").1.locks :=
  ⟨rfl,
    (C4_release { disabled := false, ns := "ns", locks := ["ns__job"] }
      [("ns__job", ⟨9, "someone"⟩)] "job" rfl).1,
    (C4_release { disabled := false, ns := "ns", locks := ["ns__job"] }
      [("ns__job", ⟨9, "someone"⟩)] "job" rfl).2.1⟩

/-! ### C6: fork guard -/

/-- C6: once the heartbeat daemon has started (`initialized` with a
recorded launch pid), an `acquire` from a different process identity
raises the fatal `RuntimeError` immediately; with a matching pid, a
not-yet-recorded pid, or a daemon not yet started, no such error is
raised. -/
theorem C6_fork_guard (st : LocksState) (s : Store)
    (pid now expire_in : Nat) (id_ key : String) (hd : st.disabled = false) :
    (st.initialized = true → ∀ p, st.launch_pid = some p → p ≠ pid →
        acquire st s pid now expire_in id_ key =
          Except.error LockError.forkViolation) ∧
      ((st.initialized = false ∨ st.launch_pid = none ∨
          st.launch_pid = some pid) →
        ∃ r, acquire st s pid now expire_in id_ key = Except.ok r) := by
  constructor
  · intro hinit p hp hne
    have hset : setup st pid = st := by simp [setup, hinit]
    have hfail : pidCheckFails (setup st pid) pid = true := by
      simp [pidCheckFails, hset, hp, hne]
    simp [acquire, hd, hfail]
  · intro hok
    have hfail : pidCheckFails (setup st pid) pid = false := by
      rcases hok with h | h | h
      · simp [setup, h, pidCheckFails]
      · unfold setup
        split <;> simp [pidCheckFails, h]
      · unfold setup
        split <;> simp [pidCheckFails, h]
    simp only [acquire, hd, Bool.false_eq_true, if_false, hfail]
    split <;> exact ⟨_, rfl⟩

theorem C6_witness :
    (({ disabled := false, ns := "ns", initialized := true, launch_pid := some 7 } : LocksState).disabled = false ∧
        acquire { disabled := false, ns := "ns", initialized := true, launch_pid := some 7 } [] 8 0 10 "t" "k" =
          Except.error LockError.forkViolation) ∧
      ∃ r, acquire { disabled := false, ns := "ns", initialized := true, launch_pid := some 7 } [] 7 0 10 "t" "k" =
        Except.ok r :=
  ⟨⟨rfl,
      (C6_fork_guard { disabled := false, ns := "ns", initialized := true, launch_pid := some 7 }
          [] 8 0 10 "t" "k" rfl).1 rfl 7 rfl (by decide)⟩,
    (C6_fork_guard { disabled := false, ns := "ns", initialized := true, launch_pid := some 7 }
        [] 7 0 10 "t" "k" rfl).2 (Or.inr (Or.inr rfl))⟩

/-! ### C8: heartbeat renews by registry membership only -/

/-- C8: the heartbeat's bulk renewal selects documents solely by registry
membership of the `_id`; the stored `lock_id` is arbitrary (in
particular, a token written by a different caller after a takeover) and
survives unchanged while `expires_at` is still extended. -/
theorem C8_heartbeat_ignores_token (st : LocksState) (s : Store)
    (now : Nat) (k : String) (r : LockRecord)
    (hmem : k ∈ st.locks) (hfind : s.find k = some r) :
    (heartbeatCycle st s now).find k =
      some ⟨now + MAX_AGE, r.lock_id⟩ := by
  simp [heartbeatCycle, find_renewMany, hfind, hmem]

theorem C8_witness :
    "ns__job" ∈
        ({ disabled := false, ns := "ns", locks := ["ns__job"], initialized := true, launch_pid := some 1 } : LocksState).locks ∧
      Store.find [("ns__job", ⟨5, "new-owner-token"⟩)] "ns__job" =
        some ⟨5, "new-owner-token"⟩ ∧
      (heartbeatCycle { disabled := false, ns := "ns", locks := ["ns__job"], initialized := true, launch_pid := some 1 }
          [("ns__job", ⟨5, "new-owner-token"⟩)] 20).find "ns__job" =
        some ⟨20 + MAX_AGE, "new-owner-token"⟩ :=
  ⟨by decide, rfl,
    C8_heartbeat_ignores_token
      { disabled := false, ns := "ns", locks := ["ns__job"], initialized := true, launch_pid := some 1 }
      [("ns__job", ⟨5, "new-owner-token"⟩)] 20 "ns__job"
      ⟨5, "new-owner-token"⟩ (by decide) rfl⟩

/-! ### A closed-form characterization of `acquire` -/

theorem acquire_eq (st : LocksState) (s : Store) (pid now expire_in : Nat)
    (id_ key : String) :
    acquire st s pid now expire_in id_ key =
      if st.disabled then Except.ok (true, st, s)
      else if pidCheckFails (setup st pid) pid then
        Except.error LockError.forkViolation
      else
        match s.find (nsKey (setup st pid).ns key) with
        | none =>
            Except.ok (true,
              { setup st pid with
                  locks := addLock (setup st pid).locks (nsKey (setup st pid).ns key) },
              s.put (nsKey (setup st pid).ns key) ⟨now + expire_in, id_⟩)
        | some r =>
            if r.expires_at ≤ now then
              Except.ok (true,
                { setup st pid with
                    locks := addLock (setup st pid).locks (nsKey (setup st pid).ns key) },
                s.put (nsKey (setup st pid).ns key) ⟨now + expire_in, id_⟩)
            else
              Except.ok (false, setup st pid, s) := by
  by_cases hdis : st.disabled
  · simp [acquire, hdis]
  · by_cases hpc : pidCheckFails (setup st pid) pid
    · simp [acquire, hdis, hpc]
    · cases hfind : s.find (nsKey (setup st pid).ns key) with
      | none =>
          simp [acquire, hdis, hpc, tryAcquire, findOneAndReplace, hfind]
      | some r =>
          by_cases hexp : r.expires_at ≤ now
          · simp [acquire, hdis, hpc, tryAcquire, findOneAndReplace, hfind, hexp]
          · simp [acquire, hdis, hpc, tryAcquire, findOneAndReplace, hfind, hexp]

/-! ### C2: acquisition protocol -/

/-- C2: for a non-disabled manager whose fork check passes, `acquire`
issues the one conditional write: with no document for the namespaced
identifier, or a stale one (`expires_at <= now`), the document becomes
`{expires_at := now + expire_in, lock_id := id_}`, the returned record
carries the locally generated token, `acquire` returns true and the key
enters the registry; with a live document, the store's
uniqueness-constraint conflict is swallowed, the store is untouched, the
registry is untouched and `acquire` returns false instead of an error. -/
theorem C2_acquisition_protocol (st : LocksState) (s : Store)
    (pid now expire_in : Nat) (id_ key : String)
    (hd : st.disabled = false)
    (hp : pidCheckFails (setup st pid) pid = false) :
    (s.find (nsKey st.ns key) = none →
        acquire st s pid now expire_in id_ key =
          Except.ok (true,
            { setup st pid with
                locks := addLock (setup st pid).locks (nsKey st.ns key) },
            s.put (nsKey st.ns key) ⟨now + expire_in, id_⟩)) ∧
      (∀ r, s.find (nsKey st.ns key) = some r → r.expires_at ≤ now →
        acquire st s pid now expire_in id_ key =
          Except.ok (true,
            { setup st pid with
                locks := addLock (setup st pid).locks (nsKey st.ns key) },
            s.put (nsKey st.ns key) ⟨now + expire_in, id_⟩)) ∧
      (∀ r, s.find (nsKey st.ns key) = some r → now < r.expires_at →
        acquire st s pid now expire_in id_ key =
          Except.ok (false, setup st pid, s)) := by
  have hns : (setup st pid).ns = st.ns := setup_ns st pid
  refine ⟨?_, ?_, ?_⟩
  · intro hfind
    rw [acquire_eq]
    simp [hd, hp, hns, hfind]
  · intro r hfind hstale
    rw [acquire_eq]
    simp [hd, hp, hns, hfind, hstale]
  · intro r hfind hlive
    rw [acquire_eq]
    simp [hd, hp, hns, hfind, Nat.not_le.mpr hlive]

theorem C2_witness :
    Store.find [] (nsKey "ns" "job") = none ∧
      acquire { disabled := false, ns := "ns", initialized := true, launch_pid := some 1 } [] 1 100 10 "tok" "job" =
        Except.ok (true, { disabled := false, ns := "ns", locks := ["ns__job"], initialized := true, launch_pid := some 1 },
          [("ns__job", ⟨110, "tok"⟩)]) ∧
      acquire { disabled := false, ns := "ns", initialized := true, launch_pid := some 1 }
          [("ns__job", ⟨200, "other"⟩)] 1 100 10 "tok" "job" =
        Except.ok (false, { disabled := false, ns := "ns", initialized := true, launch_pid := some 1 },
          [("ns__job", ⟨200, "other"⟩)]) :=
  ⟨rfl,
    (C2_acquisition_protocol { disabled := false, ns := "ns", initialized := true, launch_pid := some 1 }
        [] 1 100 10 "tok" "job" rfl rfl).1 rfl,
    (C2_acquisition_protocol { disabled := false, ns := "ns", initialized := true, launch_pid := some 1 }
        [("ns__job", ⟨200, "other"⟩)] 1 100 10 "tok" "job" rfl rfl).2.2
      ⟨200, "other"⟩ rfl (by decide)⟩

/-! ### C3: heartbeat daemon (corrected) -/

/-- C3 counterexample: on a fresh non-disabled instance, the very first
`acquire` call loses the race (the store holds a live foreign record and
`acquire` returns false), yet the heartbeat daemon is already started:
the result state has `initialized = true` with the launch pid recorded —
the daemon start is keyed to the first call, not to the first
*successful* acquisition. -/
theorem C3_counterexample :
    acquire { disabled := false, ns := "ns" } [("ns__job", ⟨100, "other"⟩)] 1 0 10 "tok" "job" =
      Except.ok (false,
        { disabled := false, ns := "ns", locks := [], initialized := true, launch_pid := some 1 },
        [("ns__job", ⟨100, "other"⟩)]) := rfl

/-- C3 (amended): the daemon is lazily started on the first `acquire`
call of a non-disabled instance's lifetime — successful or not: every
`acquire` that returns at all leaves `initialized = true` — and `release`
never resets it; each heartbeat cycle is one bulk update that sets
`expires_at = now + lease_duration` on exactly the documents whose key is
in the registry; the cadence is `lease_duration / 3` (floor division). -/
theorem C3_heartbeat_daemon (st : LocksState) (s : Store)
    (pid now expire_in nowHb : Nat) (id_ key : String)
    (hd : st.disabled = false) :
    (∀ b st' s', acquire st s pid now expire_in id_ key = Except.ok (b, st', s') →
        st'.initialized = true) ∧
      ((release st s key).1.initialized = st.initialized) ∧
      (∀ k, (heartbeatCycle st s nowHb).find k =
        (s.find k).map
          (fun r => if k ∈ st.locks then { r with expires_at := nowHb + MAX_AGE } else r)) ∧
      HEARTBEAT_INTERVAL = MAX_AGE / 3 := by
  refine ⟨?_, ?_, ?_, rfl⟩
  · intro b st' s' h
    rw [acquire_eq] at h
    simp only [hd, Bool.false_eq_true, if_false] at h
    by_cases hpc : pidCheckFails (setup st pid) pid
    · simp [hpc] at h
    · simp only [hpc, if_false, Bool.false_eq_true] at h
      cases hfind : s.find (nsKey (setup st pid).ns key) with
      | none =>
          rw [hfind] at h
          cases h
          exact setup_initialized st pid
      | some r =>
          rw [hfind] at h
          by_cases hexp : r.expires_at ≤ now
          · simp only [hexp, if_true] at h
            cases h
            exact setup_initialized st pid
          · simp only [hexp, if_false] at h
            cases h
            exact setup_initialized st pid
  · simp [release, hd]
  · intro k
    exact find_renewMany s st.locks (nowHb + MAX_AGE) k

theorem C3_witness :
    ({ disabled := false, ns := "ns", locks := ["ns__job"] } : LocksState).disabled = false ∧
      (∀ b st' s',
        acquire { disabled := false, ns := "ns", locks := ["ns__job"] } [] 1 0 10 "tok" "job" =
          Except.ok (b, st', s') → st'.initialized = true) ∧
      (heartbeatCycle { disabled := false, ns := "ns", locks := ["ns__job"] }
          [("ns__job", ⟨5, "tok"⟩)] 20).find "ns__job" =
        some ⟨20 + MAX_AGE, "tok"⟩ :=
  ⟨rfl,
    (C3_heartbeat_daemon { disabled := false, ns := "ns", locks := ["ns__job"] }
        [] 1 0 10 20 "tok" "job" rfl).1,
    by
      have := (C3_heartbeat_daemon { disabled := false, ns := "ns", locks := ["ns__job"] }
          [("ns__job", ⟨5, "tok"⟩)] 1 0 10 20 "tok" "job" rfl).2.2.1 "ns__job"
      simpa using this⟩

/-! ### C5: scoped acquisition -/

/-- C5: `lock_context` acquires first (the body only ever runs after the
acquisition step returned), and
* on a successful acquisition the release runs on every exit path — both
  when the body returns normally (`some a`, outcome `ok a`) and when it
  raises (`none`, outcome `bodyError`, the error propagating);
* on a failed acquisition with `raise_exceptions`, `LockFailure` is
  raised and the result does not depend on the body at all — the
  protected region never executes;
* on a failed acquisition without `raise_exceptions`, the body runs with
  `false` and nothing is released. -/
theorem C5_scoped_acquisition {α : Type} (st : LocksState) (s : Store)
    (pid now : Nat) (id_ key : String) (rex : Bool) (body : Bool → Option α)
    (locked : Bool) (st1 : LocksState) (s1 : Store)
    (hacq : acquire st s pid now MAX_AGE id_ key = Except.ok (locked, st1, s1)) :
    lockContext st s pid now id_ key rex body =
      if locked then
        ((body true).elim CtxOutcome.bodyError CtxOutcome.ok,
          release st1 s1 key)
      else if rex then (CtxOutcome.lockFailure, st1, s1)
      else ((body false).elim CtxOutcome.bodyError CtxOutcome.ok, st1, s1) := by
  unfold lockContext
  rw [hacq]
  cases locked with
  | true =>
      cases hb : body true with
      | none => simp [hb, Option.elim]
      | some a => simp [hb, Option.elim]
  | false =>
      cases rex with
      | true => simp
      | false =>
          cases hb : body false with
          | none => simp [hb, Option.elim]
          | some a => simp [hb, Option.elim]

theorem C5_witness :
    (acquire { disabled := false, ns := "ns", initialized := true, launch_pid := some 1 } [] 1 0 MAX_AGE "tok" "job" =
        Except.ok (true, { disabled := false, ns := "ns", locks := ["ns__job"], initialized := true, launch_pid := some 1 },
          [("ns__job", ⟨MAX_AGE, "tok"⟩)]) ∧
      lockContext { disabled := false, ns := "ns", initialized := true, launch_pid := some 1 } [] 1 0 "tok" "job" false
          (fun _ => (none : Option Nat)) =
        (CtxOutcome.bodyError, { disabled := false, ns := "ns", locks := [], initialized := true, launch_pid := some 1 }, [])) ∧
      (acquire { disabled := false, ns := "ns", initialized := true, launch_pid := some 1 }
          [("ns__job", ⟨100, "other"⟩)] 1 0 MAX_AGE "tok" "job" =
        Except.ok (false, { disabled := false, ns := "ns", initialized := true, launch_pid := some 1 },
          [("ns__job", ⟨100, "other"⟩)]) ∧
      lockContext { disabled := false, ns := "ns", initialized := true, launch_pid := some 1 }
          [("ns__job", ⟨100, "other"⟩)] 1 0 "tok" "job" true (fun _ => (some 3 : Option Nat)) =
        (CtxOutcome.lockFailure, { disabled := false, ns := "ns", initialized := true, launch_pid := some 1 },
          [("ns__job", ⟨100, "other"⟩)])) :=
  ⟨⟨rfl, by
      have := C5_scoped_acquisition { disabled := false, ns := "ns", initialized := true, launch_pid := some 1 }
        [] 1 0 "tok" "job" false (fun _ => (none : Option Nat)) true
        { disabled := false, ns := "ns", locks := ["ns__job"], initialized := true, launch_pid := some 1 }
        [("ns__job", ⟨MAX_AGE, "tok"⟩)] rfl
      simpa [release, discardLock, Store.removeKey, Option.elim] using this⟩,
    ⟨rfl, by
      have := C5_scoped_acquisition { disabled := false, ns := "ns", initialized := true, launch_pid := some 1 }
        [("ns__job", ⟨100, "other"⟩)] 1 0 "tok" "job" true (fun _ => (some 3 : Option Nat)) false
        { disabled := false, ns := "ns", initialized := true, launch_pid := some 1 }
        [("ns__job", ⟨100, "other"⟩)] rfl
      simpa using this⟩⟩

/-! ### C1: mutual exclusion -/

theorem raceStep_live (s : Store) (key : String) (r : LockRecord)
    (c : AcquireCall) (hfind : s.find key = some r)
    (hlive : c.now < r.expires_at) :
    raceStep s key c = (false, s) := by
  simp [raceStep, tryAcquire, findOneAndReplace, hfind, Nat.not_le.mpr hlive]

theorem runRace_live (s : Store) (key : String) (r : LockRecord)
    (cs : List AcquireCall) (hfind : s.find key = some r)
    (hlive : ∀ c ∈ cs, c.now < r.expires_at) :
    runRace s key cs = (cs.map (fun _ => false), s) := by
  induction cs with
  | nil => rfl
  | cons c cs ih =>
      have hstep := raceStep_live s key r c hfind (hlive c (List.mem_cons_self c cs))
      have hrest := ih (fun c' hc' => hlive c' (List.mem_cons_of_mem c hc'))
      simp [runRace, hstep, hrest]

theorem raceStep_free (s : Store) (key : String) (c : AcquireCall)
    (hfind : s.find key = none) :
    raceStep s key c = (true, s.put key ⟨c.now + c.expireIn, c.lockId⟩) := by
  simp [raceStep, tryAcquire, findOneAndReplace, hfind]

/-- C1: among N serialized racing `acquire(K)` attempts on a key with no
pre-existing record, all with overlapping lease windows (every call's
filter time falls strictly inside every other call's lease window),
exactly one attempt returns true: the store's atomic conditional write
admits the first and rejects every other. -/
theorem C1_mutual_exclusion (s : Store) (key : String)
    (calls : List AcquireCall)
    (hempty : s.find key = none)
    (hne : calls ≠ [])
    (hoverlap : ∀ c ∈ calls, ∀ c' ∈ calls, c.now < c'.now + c'.expireIn) :
    (runRace s key calls).1.count true = 1 := by
  cases calls with
  | nil => exact absurd rfl hne
  | cons c cs =>
      have hstep := raceStep_free s key c hempty
      have hfind : (s.put key ⟨c.now + c.expireIn, c.lockId⟩).find key =
          some ⟨c.now + c.expireIn, c.lockId⟩ :=
        find_put_self s key ⟨c.now + c.expireIn, c.lockId⟩
      have hrest := runRace_live (s.put key ⟨c.now + c.expireIn, c.lockId⟩) key
        ⟨c.now + c.expireIn, c.lockId⟩ cs hfind
        (fun c' hc' =>
          hoverlap c' (List.mem_cons_of_mem c hc') c (List.mem_cons_self c cs))
      simp [runRace, hstep, hrest, List.count_cons, List.count_replicate]

theorem C1_witness :
    Store.find [] "k" = none ∧
      ([⟨0, 10, "a"⟩, ⟨1, 10, "b"⟩, ⟨2, 10, "c"⟩] : List AcquireCall) ≠ [] ∧
      (∀ c ∈ ([⟨0, 10, "a"⟩, ⟨1, 10, "b"⟩, ⟨2, 10, "c"⟩] : List AcquireCall),
        ∀ c' ∈ ([⟨0, 10, "a"⟩, ⟨1, 10, "b"⟩, ⟨2, 10, "c"⟩] : List AcquireCall),
          c.now < c'.now + c'.expireIn) ∧
      (runRace [] "k" [⟨0, 10, "a"⟩, ⟨1, 10, "b"⟩, ⟨2, 10, "c"⟩]).1.count true = 1 :=
  ⟨rfl, by decide, by decide,
    C1_mutual_exclusion [] "k" [⟨0, 10, "a"⟩, ⟨1, 10, "b"⟩, ⟨2, 10, "c"⟩]
      rfl (by decide) (by decide)⟩

end MongoLocks
